import Mathlib

/-!
Verification of the CSV-normalization core of the B3 data pipeline
(`data_processor_module.py`, `config_module.py`, `env_loader.py`).

Strings of the Python program are modelled as lists of characters.
Floating-point parsing (pandas `to_numeric`) is modelled exactly over
decimal fractions: a parsed value is a numerator together with a
power-of-ten denominator, so the embedding is exact where the program
uses binary floats; the claims under study only involve values that are
exactly representable either way.
-/

set_option maxRecDepth 100000

namespace B3

/-- Strings of the Python program, as lists of characters. -/
abbrev Str := List Char

/-- View a Lean string literal in the character-list representation. -/
def strL (s : String) : Str := s.data

/-- Python `str.strip` whitespace set (the ASCII part, which is all the
pipeline ever meets). -/
def pyWhitespace (c : Char) : Bool :=
  c == ' ' || c == '\t' || c == '\n' || c == '\r' || c == '\x0b' || c == '\x0c'

/-- Python `str.strip()`: drop leading and trailing whitespace. -/
def strip (s : Str) : Str :=
  ((s.dropWhile pyWhitespace).reverse.dropWhile pyWhitespace).reverse

/-- Does the string begin with the given pattern. -/
def startsWith : Str → Str → Bool
  | _, [] => true
  | [], _ :: _ => false
  | c :: cs, p :: ps => c == p && startsWith cs ps

/-- Worker for `replaceAll`, structurally recursive on a fuel argument so
that it evaluates inside the kernel; the fuel is always at least the
length of the remaining string. -/
def replaceAllAux (pat repl : Str) : Nat → Str → Str
  | _, [] => []
  | 0, s => s
  | fuel + 1, c :: cs =>
    if startsWith (c :: cs) pat && !pat.isEmpty then
      repl ++ replaceAllAux pat repl fuel (cs.drop (pat.length - 1))
    else
      c :: replaceAllAux pat repl fuel cs

/-- Python `str.replace(pat, repl)`: replace all non-overlapping
occurrences of `pat`, scanning left to right.  (The program only calls it
with non-empty `pat`.) -/
def replaceAll (pat repl : Str) (s : Str) : Str :=
  replaceAllAux pat repl s.length s

/-- Numeric value of a decimal digit character. -/
def digitVal (c : Char) : Nat := c.toNat - 48

/-- Value of a string of decimal digits. -/
def digitsToNat (s : Str) : Nat := s.foldl (fun a c => 10 * a + digitVal c) 0

/-- Exact decimal number `num / den`, with `den` a power of ten.  This is
the value a successful `pandas.to_numeric` conversion yields. -/
structure Dec where
  num : Int
  den : Nat
deriving DecidableEq

/-- The rational value of a parsed decimal. -/
def Dec.toRat (d : Dec) : ℚ := (d.num : ℚ) / (d.den : ℚ)

/-- Negation of a parsed decimal. -/
def Dec.neg (d : Dec) : Dec := ⟨-d.num, d.den⟩

/-- Characters allowed in an unsigned float literal. -/
def isFloatChar (c : Char) : Bool := c.isDigit || c == '.'

/-- Parse an unsigned decimal literal (digits with at most one point, at
least one digit), as Python `float` accepts after an optional sign. -/
def parseUnsigned (s : Str) : Option Dec :=
  if s.all isFloatChar && decide (s.count '.' ≤ 1) && s.any Char.isDigit then
    let intPart := s.takeWhile (fun c => c != '.')
    let fracPart := (s.dropWhile (fun c => c != '.')).drop 1
    some ⟨(digitsToNat intPart : Int) * ((10 : Nat) ^ fracPart.length : Nat)
            + (digitsToNat fracPart : Int), (10 : Nat) ^ fracPart.length⟩
  else none

/-- The numeric conversion applied to one cleaned string by
`pd.to_numeric(..., errors='coerce')`: an optional sign followed by a
decimal literal; anything else coerces to the missing marker `none`. -/
def parseFloat (s : Str) : Option Dec :=
  match s with
  | [] => none
  | c :: rest =>
    if c == '-' then (parseUnsigned rest).map Dec.neg
    else if c == '+' then parseUnsigned rest
    else parseUnsigned (c :: rest)

/-- Pandas `astype(str)` on a cell: a missing value prints as "nan". -/
def naRepr : Option Str → Str
  | none => strL "nan"
  | some s => s

/-- DataProcessor.clean_numeric_field: series-level cleaning of a numeric
column, mirroring the sequence of whole-series operations in the source
(strip, remove `%`, `-`, `nan`, `N/A`, thousands `.` when `is_currency`,
decimal `,` to `.`, then coerce to numbers). -/
def clean_numeric_field (series : List (Option Str)) (is_currency : Bool) :
    List (Option Dec) :=
  if series.isEmpty then [] else
  let cleaned := series.map naRepr
  let cleaned := cleaned.map strip
  let cleaned := cleaned.map (replaceAll (strL "%") [])
  let cleaned := cleaned.map (replaceAll (strL "-") [])
  let cleaned := cleaned.map (replaceAll (strL "nan") [])
  let cleaned := cleaned.map (replaceAll (strL "N/A") [])
  let cleaned := if is_currency then cleaned.map (replaceAll (strL ".") []) else cleaned
  let cleaned := cleaned.map (replaceAll (strL ",") (strL "."))
  cleaned.map parseFloat

/-- The cleaning pipeline of `clean_numeric_field` applied to a single
value. -/
def cleanValue (is_currency : Bool) (v : Option Str) : Option Dec :=
  let s := strip (naRepr v)
  let s := replaceAll (strL "%") [] s
  let s := replaceAll (strL "-") [] s
  let s := replaceAll (strL "nan") [] s
  let s := replaceAll (strL "N/A") [] s
  let s := if is_currency then replaceAll (strL ".") [] s else s
  let s := replaceAll (strL ",") (strL ".") s
  parseFloat s

/-- The series-level cleaning steps commute into a single per-value map. -/
lemma clean_numeric_field_eq_map (series : List (Option Str)) (f : Bool) :
    clean_numeric_field series f = series.map (cleanValue f) := by
  cases series with
  | nil => cases f <;> rfl
  | cons a l =>
    cases f <;>
      · simp only [clean_numeric_field, List.isEmpty_cons, Bool.false_eq_true,
          if_false, List.map_map, if_true]
        refine List.map_congr_left fun v _ => ?_
        simp only [cleanValue, Bool.false_eq_true, if_false, if_true,
          Function.comp_apply]

/-- The cleaning of a column never changes its length. -/
lemma clean_numeric_field_length (series : List (Option Str)) (f : Bool) :
    (clean_numeric_field series f).length = series.length := by
  rw [clean_numeric_field_eq_map]
  exact List.length_map _ _

/-- C1.  `clean_numeric_field` is exactly the per-value cleaning pipeline
(strip whitespace, remove `%`, `-` and not-available tokens, remove `.`
only under the thousands-grouped flag, turn `,` into `.`, then parse,
with `none` — not an exception — for unparseable input) mapped over the
series; on `"1.234,56"` with the flag it yields `1234.56`, on `"999,99"`
without the flag `999.99`, and on `"invalid"` the missing marker. -/
theorem clean_numeric_field_spec :
    (∀ (series : List (Option Str)) (is_currency : Bool),
        clean_numeric_field series is_currency = series.map (cleanValue is_currency))
    ∧ clean_numeric_field [some (strL "1.234,56")] true = [some ⟨123456, 100⟩]
    ∧ Dec.toRat ⟨123456, 100⟩ = 1234.56
    ∧ clean_numeric_field [some (strL "999,99")] false = [some ⟨99999, 100⟩]
    ∧ Dec.toRat ⟨99999, 100⟩ = 999.99
    ∧ clean_numeric_field [some (strL "invalid")] true = [none] :=
  ⟨clean_numeric_field_eq_map, by decide, by norm_num [Dec.toRat],
    by decide, by norm_num [Dec.toRat], by decide⟩

/-- Characters of `replaceAllAux pat repl fuel s` come from `repl` or
from `s`. -/
lemma not_mem_replaceAllAux {x : Char} {pat repl : Str} (hr : x ∉ repl) :
    ∀ (fuel : Nat) (s : Str), x ∉ s → x ∉ replaceAllAux pat repl fuel s := by
  intro fuel
  induction fuel with
  | zero =>
    intro s hs
    cases s with
    | nil => simp [replaceAllAux]
    | cons c cs => simpa [replaceAllAux] using hs
  | succ n ih =>
    intro s hs
    cases s with
    | nil => simp [replaceAllAux]
    | cons c cs =>
      rw [replaceAllAux]
      by_cases h : (startsWith (c :: cs) pat && !pat.isEmpty) = true
      · rw [if_pos h]
        intro hmem
        rcases List.mem_append.mp hmem with h1 | h1
        · exact hr h1
        · exact ih _ (fun hd => (hs (List.mem_cons_of_mem c (List.drop_subset _ _ hd)))) h1
      · rw [if_neg h]
        intro hmem
        rcases List.mem_cons.mp hmem with h1 | h1
        · exact hs (h1 ▸ List.mem_cons_self c cs)
        · exact ih cs (fun hd => hs (List.mem_cons_of_mem c hd)) h1

/-- Replacing the single-character pattern `[p]` by the empty string
removes every occurrence of `p`, given enough fuel. -/
lemma not_mem_replaceAllAux_single (p : Char) :
    ∀ (fuel : Nat) (s : Str), s.length ≤ fuel → p ∉ replaceAllAux [p] [] fuel s := by
  intro fuel
  induction fuel with
  | zero =>
    intro s hs
    cases s with
    | nil => simp [replaceAllAux]
    | cons c cs => simp at hs
  | succ n ih =>
    intro s hs
    cases s with
    | nil => simp [replaceAllAux]
    | cons c cs =>
      rw [replaceAllAux]
      by_cases h : (startsWith (c :: cs) [p] && !([p] : Str).isEmpty) = true
      · rw [if_pos h]
        simp only [List.nil_append, List.length_cons, List.drop_zero] at *
        exact ih cs (by omega)
      · rw [if_neg h]
        simp only [startsWith, Bool.and_true, List.isEmpty_cons, Bool.not_false,
          Bool.and_true] at h
        intro hmem
        rcases List.mem_cons.mp hmem with h1 | h1
        · exact h (by simp [h1])
        · exact ih cs (by simpa using Nat.le_of_succ_le_succ hs) h1

/-- After the `'-'` removal step no minus sign is left. -/
lemma not_mem_replaceAll_minus (s : Str) : '-' ∉ replaceAll (strL "-") [] s :=
  not_mem_replaceAllAux_single '-' s.length s le_rfl

/-- A successfully parsed unsigned literal is non-negative. -/
lemma parseUnsigned_nonneg {s : Str} {d : Dec} (h : parseUnsigned s = some d) :
    0 ≤ d.toRat := by
  rw [parseUnsigned] at h
  split at h
  · rcases Option.some_injective _ h with rfl
    unfold Dec.toRat
    apply div_nonneg
    · push_cast
      positivity
    · positivity
  · exact absurd h (by simp)

/-- `parseFloat` on a string without a minus sign is non-negative. -/
lemma parseFloat_nonneg {s : Str} {d : Dec} (hm : '-' ∉ s)
    (h : parseFloat s = some d) : 0 ≤ d.toRat := by
  cases s with
  | nil => simp [parseFloat] at h
  | cons c rest =>
    have hc : ¬ (c == '-') = true := by
      simp only [beq_iff_eq]
      intro heq
      exact hm (heq ▸ List.mem_cons_self c rest)
    rw [parseFloat, if_neg hc] at h
    by_cases hp : (c == '+') = true
    · rw [if_pos hp] at h
      exact parseUnsigned_nonneg h
    · rw [if_neg hp] at h
      exact parseUnsigned_nonneg h

/-- Every number produced by the per-value cleaning pipeline is
non-negative: the minus sign is stripped before parsing. -/
lemma cleanValue_nonneg (f : Bool) (v : Option Str) (d : Dec)
    (h : cleanValue f v = some d) : 0 ≤ d.toRat := by
  have hminus : ('-' : Char) ∉
      replaceAll (strL "-") [] (replaceAll (strL "%") [] (strip (naRepr v))) :=
    not_mem_replaceAll_minus _
  have h4 : ('-' : Char) ∉ replaceAll (strL "nan") []
      (replaceAll (strL "-") [] (replaceAll (strL "%") [] (strip (naRepr v)))) :=
    not_mem_replaceAllAux (by simp) _ _ hminus
  have h5 : ('-' : Char) ∉ replaceAll (strL "N/A") [] (replaceAll (strL "nan") []
      (replaceAll (strL "-") [] (replaceAll (strL "%") [] (strip (naRepr v))))) :=
    not_mem_replaceAllAux (by simp) _ _ h4
  have h6 : ('-' : Char) ∉ (if f then replaceAll (strL ".") []
      (replaceAll (strL "N/A") [] (replaceAll (strL "nan") []
        (replaceAll (strL "-") [] (replaceAll (strL "%") [] (strip (naRepr v))))))
      else replaceAll (strL "N/A") [] (replaceAll (strL "nan") []
        (replaceAll (strL "-") [] (replaceAll (strL "%") [] (strip (naRepr v)))))) := by
    cases f
    · simpa using h5
    · simpa using not_mem_replaceAllAux (by simp) _ _ h5
  have h7 : ('-' : Char) ∉ replaceAll (strL ",") (strL ".")
      (if f then replaceAll (strL ".") []
        (replaceAll (strL "N/A") [] (replaceAll (strL "nan") []
          (replaceAll (strL "-") [] (replaceAll (strL "%") [] (strip (naRepr v))))))
       else replaceAll (strL "N/A") [] (replaceAll (strL "nan") []
        (replaceAll (strL "-") [] (replaceAll (strL "%") [] (strip (naRepr v)))))) :=
    not_mem_replaceAllAux (by decide) _ _ h6
  have hv : cleanValue f v = parseFloat (replaceAll (strL ",") (strL ".")
      (if f then replaceAll (strL ".") []
        (replaceAll (strL "N/A") [] (replaceAll (strL "nan") []
          (replaceAll (strL "-") [] (replaceAll (strL "%") [] (strip (naRepr v))))))
       else replaceAll (strL "N/A") [] (replaceAll (strL "nan") []
        (replaceAll (strL "-") [] (replaceAll (strL "%") [] (strip (naRepr v))))))) := by
    simp only [cleanValue]
  rw [hv] at h
  exact parseFloat_nonneg h7 h

/-- C9 (implicit).  Every non-missing value produced by
`clean_numeric_field` is non-negative, because every `-` character is
removed from the text before numeric parsing; in particular the negative
source value `"-5,5"` is silently converted to the positive number `5.5`
rather than kept negative or dropped. -/
theorem clean_numeric_field_nonneg :
    (∀ (series : List (Option Str)) (is_currency : Bool) (d : Dec),
        some d ∈ clean_numeric_field series is_currency → 0 ≤ d.toRat)
    ∧ clean_numeric_field [some (strL "-5,5")] false = [some ⟨55, 10⟩]
    ∧ Dec.toRat ⟨55, 10⟩ = 5.5 := by
  refine ⟨?_, by decide, by norm_num [Dec.toRat]⟩
  intro series f d hmem
  rw [clean_numeric_field_eq_map] at hmem
  rcases List.mem_map.mp hmem with ⟨v, _, hv⟩
  exact cleanValue_nonneg f v d hv

/-- Witness for C9 at the concrete input `"-5,5"`. -/
theorem clean_numeric_field_nonneg_witness : (0 : ℚ) ≤ Dec.toRat ⟨55, 10⟩ :=
  clean_numeric_field_nonneg.1 [some (strL "-5,5")] false ⟨55, 10⟩ (by decide)

/-- One character survives the `re.sub(r'[^a-zA-Z0-9_]', '', ...)` removal
of `clean_column_name`. -/
def wordChar (c : Char) : Bool :=
  ('a' ≤ c && c ≤ 'z') || ('A' ≤ c && c ≤ 'Z') || ('0' ≤ c && c ≤ '9') || c == '_'

/-- Python `str.lower()`; only its action on ASCII matters here because it
is applied after the word-character filter. -/
def pyLower (c : Char) : Char :=
  if 'A' ≤ c && c ≤ 'Z' then Char.ofNat (c.toNat + 32) else c

/-- DataProcessor.clean_column_name.  The external `unidecode.unidecode`
transliteration is taken as a parameter `uni`; everything proved below
holds for every choice of it.  A null column name is the `none` case. -/
def clean_column_name (uni : Str → Str) (col : Option Str) : Str :=
  match col with
  | none => strL "unnamed_column"
  | some s =>
    if s.isEmpty then strL "unnamed_column"
    else
      let t := (uni s).filter wordChar
      if t.isEmpty then strL "unnamed_column" else t.map pyLower

/-- Characters allowed by the output pattern `^[a-z0-9_]*$`. -/
def lowerWordChar (c : Char) : Bool :=
  ('a' ≤ c && c ≤ 'z') || ('0' ≤ c && c ≤ '9') || c == '_'

/-- Character order agrees with code-point order. -/
lemma char_le_iff {a b : Char} : a ≤ b ↔ a.toNat ≤ b.toNat := by
  rw [Char.le_def, UInt32.le_def]
  exact Iff.rfl

/-- Code points below the surrogate range round-trip through
`Char.ofNat`. -/
lemma char_toNat_ofNat {n : Nat} (h : n < 55296) : (Char.ofNat n).toNat = n := by
  unfold Char.ofNat
  rw [dif_pos (Or.inl h)]
  simp [Char.toNat, Char.ofNatAux, UInt32.toNat, UInt32.ofNat']

/-- Lowercasing a word character lands in the lowercase pattern. -/
lemma pyLower_lowerWordChar {c : Char} (h : wordChar c = true) :
    lowerWordChar (pyLower c) = true := by
  simp only [wordChar, Bool.or_eq_true, Bool.and_eq_true, decide_eq_true_eq,
    beq_iff_eq] at h
  unfold pyLower
  by_cases hAZ : ('A' ≤ c ∧ c ≤ 'Z')
  · rw [if_pos (by simp only [Bool.and_eq_true, decide_eq_true_eq]; exact hAZ)]
    have h1 : 65 ≤ c.toNat := char_le_iff.mp hAZ.1
    have h2 : c.toNat ≤ 90 := char_le_iff.mp hAZ.2
    have hofnat : (Char.ofNat (c.toNat + 32)).toNat = c.toNat + 32 :=
      char_toNat_ofNat (by omega)
    simp only [lowerWordChar, Bool.or_eq_true, Bool.and_eq_true, decide_eq_true_eq]
    refine Or.inl (Or.inl ⟨char_le_iff.mpr ?_, char_le_iff.mpr ?_⟩)
    · rw [hofnat]
      show 97 ≤ c.toNat + 32
      omega
    · rw [hofnat]
      show c.toNat + 32 ≤ 122
      omega
  · rw [if_neg (by simp only [Bool.and_eq_true, decide_eq_true_eq]; exact hAZ)]
    simp only [lowerWordChar, Bool.or_eq_true, Bool.and_eq_true, decide_eq_true_eq,
      beq_iff_eq]
    rcases h with ((h | h) | h) | h
    · exact Or.inl (Or.inl h)
    · exact absurd h hAZ
    · exact Or.inl (Or.inr h)
    · exact Or.inr h

/-- C6.  For every input (null and empty included) and every behaviour of
the external transliteration, the output of `clean_column_name` matches
`^[a-z0-9_]*$` and is never empty; empty, null, or fully-removed input
maps to the sentinel `"unnamed_column"` which itself matches. -/
theorem clean_column_name_spec :
    ∀ (uni : Str → Str) (col : Option Str),
      (clean_column_name uni col).all lowerWordChar = true
      ∧ clean_column_name uni col ≠ [] := by
  intro uni col
  cases col with
  | none =>
    constructor
    · show (strL "unnamed_column").all lowerWordChar = true
      decide
    · show strL "unnamed_column" ≠ []
      decide
  | some s =>
    simp only [clean_column_name]
    by_cases he : s.isEmpty = true
    · simp only [he, if_true]
      exact ⟨by decide, by decide⟩
    · simp only [he, Bool.false_eq_true, if_false]
      by_cases ht : ((uni s).filter wordChar).isEmpty = true
      · simp only [ht, if_true]
        exact ⟨by decide, by decide⟩
      · simp only [ht, Bool.false_eq_true, if_false]
        constructor
        · rw [List.all_eq_true]
          intro x hx
          rcases List.mem_map.mp hx with ⟨y, hy, rfl⟩
          exact pyLower_lowerWordChar (List.of_mem_filter hy)
        · intro hnil
          rw [List.map_eq_nil_iff] at hnil
          rw [hnil] at ht
          exact ht rfl

/-! Environment loader (`env_loader.py`).  The process environment is an
association list, newest binding first. -/

/-- The process environment. -/
abbrev Env := List (Str × Str)

/-- Python `os.getenv`. -/
def getenv (env : Env) (k : Str) : Option Str :=
  (env.find? (fun p => p.1 == k)).map (fun p => p.2)

/-- Python `os.environ[k] = v`. -/
def setenv (env : Env) (k v : Str) : Env := (k, v) :: env

/-- Truthiness of `os.getenv(key)`: false for an unset variable and for
the empty string. -/
def envTruthy (o : Option Str) : Bool :=
  match o with
  | none => false
  | some v => !v.isEmpty

/-- The double-quote character. -/
def dquote : Char := Char.ofNat 34

/-- The single-quote character. -/
def squote : Char := Char.ofNat 39

/-- Python `v.startswith(q) and v.endswith(q)` for a one-character `q`. -/
def isQuoted (q : Char) (v : Str) : Bool :=
  match v with
  | [] => false
  | c :: _ => c == q && (v.getLast? == some q)

/-- The quote-stripping step of `load_env_file` (`value[1:-1]`). -/
def stripQuotes (v : Str) : Str :=
  if isQuoted dquote v then (v.drop 1).dropLast
  else if isQuoted squote v then (v.drop 1).dropLast
  else v

/-- One iteration of the `load_env_file` line loop: skip blank and comment
lines, split at the first `=`, strip key and value, unquote the value, and
set the variable only when the key is non-empty and `os.getenv(key)` is
falsy (unset or empty). -/
def load_env_line (env : Env) (line : Str) : Env :=
  let l := strip line
  if l.isEmpty || startsWith l (strL "#") then env
  else if l.contains '=' then
    let key := strip (l.takeWhile (fun c => c != '='))
    let value := stripQuotes (strip ((l.dropWhile (fun c => c != '=')).drop 1))
    if !key.isEmpty && !envTruthy (getenv env key) then setenv env key value
    else env
  else env

/-- env_loader.load_env_file: the line loop over the whole file.  (The
file-existence check, logging and the returned boolean are I/O framing
around this loop and are not modelled.) -/
def load_env_file (lines : List Str) (env : Env) : Env :=
  lines.foldl load_env_line env

/-- A lookup is unchanged by prepending a binding for a different key. -/
lemma getenv_setenv_ne (env : Env) {k key : Str} (v : Str) (h : (key == k) = false) :
    getenv (setenv env key v) k = getenv env k := by
  simp only [getenv, setenv, List.find?, h]

/-- One line of the loader never changes a variable that is already set
to a non-empty value. -/
lemma load_env_line_preserves (env : Env) (line : Str) {k v : Str}
    (hv : getenv env k = some v) (hne : v ≠ []) :
    getenv (load_env_line env line) k = some v := by
  simp only [load_env_line]
  split
  · exact hv
  · split
    · set key := strip ((strip line).takeWhile (fun c => c != '=')) with hkey
      by_cases hset : (!key.isEmpty && !envTruthy (getenv env key)) = true
      · rw [if_pos hset]
        by_cases hkk : (key == k) = true
        · exfalso
          have hset2 := hset
          simp only [Bool.and_eq_true] at hset2
          rcases hset2 with ⟨_, hfalsy⟩
          rw [beq_iff_eq] at hkk
          rw [hkk, hv] at hfalsy
          simp only [envTruthy, Bool.not_not] at hfalsy
          rw [List.isEmpty_iff] at hfalsy
          exact hne hfalsy
        · rw [getenv_setenv_ne env _ (Bool.not_eq_true _ ▸ hkk)]
          exact hv
      · rw [if_neg hset]
        exact hv
    · exact hv

/-- C10 (implicit).  `load_env_file` never overwrites an environment
variable that already has a non-empty value: whatever the file contains,
a variable bound to a non-empty string before the load is bound to the
same string after it. -/
theorem load_env_file_no_overwrite (lines : List Str) (env : Env) (k v : Str)
    (hv : getenv env k = some v) (hne : v ≠ []) :
    getenv (load_env_file lines env) k = some v := by
  induction lines generalizing env with
  | nil => exact hv
  | cons line rest ih =>
    exact ih (load_env_line env line) (load_env_line_preserves env line hv hne)

/-- Witness for C10: a pre-set credential survives a `.env` file that
tries to rebind it. -/
theorem load_env_file_no_overwrite_witness :
    getenv (load_env_file [strL "AWS_ACCESS_KEY_ID=new"]
      [(strL "AWS_ACCESS_KEY_ID", strL "old")]) (strL "AWS_ACCESS_KEY_ID")
      = some (strL "old") :=
  load_env_file_no_overwrite [strL "AWS_ACCESS_KEY_ID=new"]
    [(strL "AWS_ACCESS_KEY_ID", strL "old")] (strL "AWS_ACCESS_KEY_ID")
    (strL "old") (by decide) (by decide)

/-! Dates, the tabular model and the ingestion pipeline
(`data_processor_module.py`, `config_module.py`). -/

/-- A calendar date. -/
structure Date where
  year : Nat
  month : Nat
  day : Nat
deriving DecidableEq

/-- Gregorian leap year. -/
def isLeap (y : Nat) : Bool := (y % 4 == 0 && y % 100 != 0) || y % 400 == 0

/-- Length of a month. -/
def daysInMonth (y m : Nat) : Nat :=
  if m == 2 then (if isLeap y then 29 else 28)
  else if m == 4 || m == 6 || m == 9 || m == 11 then 30
  else 31

/-- Build a date, validating the ranges as the pandas datetime conversion
does (out-of-range dates coerce to the missing marker). -/
def mkValidDate (y m d : Nat) : Option Date :=
  if 1 ≤ m ∧ m ≤ 12 ∧ 1 ≤ d ∧ d ≤ daysInMonth y m then some ⟨y, m, d⟩ else none

/-- Value of two decimal digit characters. -/
def twoDigits (a b : Char) : Nat := 10 * digitVal a + digitVal b

/-- `pd.to_datetime(..., format='%d/%m/%Y', errors='coerce')` on one
string: a `dd/mm/yyyy` value becomes a date, anything else the missing
marker. -/
def parseDateDMY (s : Str) : Option Date :=
  match s with
  | [a, b, s1, c, d, s2, e, f, g, h] =>
    if a.isDigit && b.isDigit && s1 == '/' && c.isDigit && d.isDigit &&
        s2 == '/' && e.isDigit && f.isDigit && g.isDigit && h.isDigit then
      mkValidDate (digitsToNat [e, f, g, h]) (twoDigits c d) (twoDigits a b)
    else none
  | _ => none

/-- `pd.to_datetime(..., errors='coerce')` on one string, modelled for the
ISO-like `YYYY-MM-DD[Tt ]...` shapes that are the only ones the pipeline
feeds it; anything else coerces to the missing marker. -/
def parseTimestamp (s : Str) : Option Date :=
  match s with
  | y1 :: y2 :: y3 :: y4 :: s1 :: m1 :: m2 :: s2 :: d1 :: d2 :: rest =>
    if y1.isDigit && y2.isDigit && y3.isDigit && y4.isDigit && s1 == '-' &&
        m1.isDigit && m2.isDigit && s2 == '-' && d1.isDigit && d2.isDigit &&
        (rest.isEmpty || rest.headD ' ' == 'T' || rest.headD ' ' == ' ') then
      mkValidDate (digitsToNat [y1, y2, y3, y4]) (twoDigits m1 m2) (twoDigits d1 d2)
    else none
  | _ => none

/-- Match the regex `(\d{2})/(\d{2})/(\d{2})` at the start of the string,
returning the three capture groups. -/
def matchDateAt : Str → Option (Str × Str × Str)
  | a :: b :: c :: d :: e :: f :: g :: h :: _ =>
    if a.isDigit && b.isDigit && c == '/' && d.isDigit && e.isDigit &&
        f == '/' && g.isDigit && h.isDigit then
      some ([a, b], [d, e], [g, h])
    else none
  | _ => none

/-- `re.search` for the pattern above: the leftmost match wins. -/
def scanDate : Str → Option (Str × Str × Str)
  | [] => none
  | c :: cs =>
    match matchDateAt (c :: cs) with
    | some r => some r
    | none => scanDate cs

/-- Decimal digits of a number, zero-padded to width two (`%d`/`%m`). -/
def pad2 (n : Nat) : Str :=
  if n < 10 then '0' :: Nat.toDigits 10 n else Nat.toDigits 10 n

/-- Decimal digits of a number, zero-padded to width four (`%Y`). -/
def pad4 (n : Nat) : Str :=
  List.replicate (4 - (Nat.toDigits 10 n).length) '0' ++ Nat.toDigits 10 n

/-- `datetime.strftime('%d/%m/%Y')`. -/
def formatDMY (d : Date) : Str :=
  pad2 d.day ++ '/' :: pad2 d.month ++ '/' :: pad4 d.year

/-- `datetime.strftime('%Y-%m-%d')`. -/
def formatYMD (d : Date) : Str :=
  pad4 d.year ++ '-' :: pad2 d.month ++ '-' :: pad2 d.day

/-- DataProcessor.extract_date_from_header: scan the first (banner) line
for a `dd/mm/yy` pattern, map the two-digit year to `20yy`, and fall back
to the current date (`today`) when there is no match.  The I/O error
fallback of the source also returns the current date and is absorbed by
the `none` case. -/
def extract_date_from_header (file : List Str) (today : Date) : Str :=
  let first_line := strip (file.headD [])
  match scanDate first_line with
  | some (dd, mm, yy) => dd ++ '/' :: mm ++ '/' :: '2' :: '0' :: yy
  | none => formatDMY today

/-- One cell of a dataframe: missing, text, number, or datetime. -/
inductive Cell where
  | null : Cell
  | str : Str → Cell
  | num : Dec → Cell
  | date : Date → Cell
deriving DecidableEq

/-- A pandas DataFrame: named columns over rows of cells; every row has
one cell per column. -/
structure DataFrame where
  cols : List String
  rows : List (List Cell)
deriving DecidableEq

/-- Position of a column name (first occurrence). -/
def colIdx (cols : List String) (name : String) : Option Nat :=
  match cols with
  | [] => none
  | c :: cs => if c == name then some 0 else (colIdx cs name).map (fun i => i + 1)

/-- The cells of the named column, in row order (`df[name]`). -/
def getColCells (df : DataFrame) (name : String) : List Cell :=
  match colIdx df.cols name with
  | some i => df.rows.map (fun r => r.getD i Cell.null)
  | none => []

/-- Apply a function to every cell of the named column
(`df[name] = df[name].map(f)`). -/
def mapColumn (df : DataFrame) (name : String) (f : Cell → Cell) : DataFrame :=
  match colIdx df.cols name with
  | some i => ⟨df.cols, df.rows.map (fun r => r.set i (f (r.getD i Cell.null)))⟩
  | none => df

/-- Replace the named column by a list of values (`df[name] = vals`). -/
def setColumn (df : DataFrame) (name : String) (vals : List Cell) : DataFrame :=
  match colIdx df.cols name with
  | some i => ⟨df.cols, df.rows.zipWith (fun r v => r.set i v) vals⟩
  | none => df

/-- Append a new column holding the same value in every row
(`df[name] = v` for a fresh name). -/
def addColumn (df : DataFrame) (name : String) (v : Cell) : DataFrame :=
  ⟨df.cols ++ [name], df.rows.map (fun r => r ++ [v])⟩

/-- `df.dropna(how='all')`: drop rows whose every cell is missing. -/
def dropnaAll (df : DataFrame) : DataFrame :=
  ⟨df.cols, df.rows.filter (fun r => !(r.all (fun c => c == Cell.null)))⟩

/-- `df.dropna(subset=names)`: drop rows missing any of the named
columns. -/
def dropnaSubset (names : List String) (df : DataFrame) : DataFrame :=
  ⟨df.cols, df.rows.filter (fun r => names.all (fun nm =>
    match colIdx df.cols nm with
    | some i => !(r.getD i Cell.null == Cell.null)
    | none => true))⟩

/-- Config.REQUIRED_COLUMNS. -/
def REQUIRED_COLUMNS : List String :=
  ["codigo", "acao", "tipo", "qtdeteorica", "part", "data_pregao", "timestamp_extracao"]

/-- Matcher for Config.CODIGO_PATTERN, the regex `^[A-Z0-9]+$`. -/
def CODIGO_PATTERN (s : Str) : Bool :=
  !s.isEmpty && s.all (fun c => ('A' ≤ c && c ≤ 'Z') || ('0' ≤ c && c ≤ '9'))

/-- DataProcessor.validate_dataframe: false on an empty table, false when
a required column is missing, true otherwise.  It only reads the table
and never throws. -/
def validate_dataframe (df : DataFrame) : Bool :=
  if df.rows.isEmpty then false
  else if !(REQUIRED_COLUMNS.all (fun c => df.cols.contains c)) then false
  else true

/-- The pandas default `na_values` set: a raw field equal to one of these
reads as missing. -/
def NA_VALUES : List Str :=
  [strL "", strL "#N/A", strL "#N/A N/A", strL "#NA", strL "-1.#IND",
   strL "-1.#QNAN", strL "-NaN", strL "-nan", strL "1.#IND", strL "1.#QNAN",
   strL "<NA>", strL "N/A", strL "NA", strL "NULL", strL "NaN", strL "None",
   strL "n/a", strL "nan", strL "null"]

/-- Read one raw field into a cell. -/
def mkCell (s : Str) : Cell :=
  if NA_VALUES.contains s then Cell.null else Cell.str s

/-- Split a line at every separator character. -/
def splitOn (sep : Char) : Str → List Str
  | [] => [[]]
  | c :: cs =>
    match splitOn sep cs with
    | [] => [[c]]
    | h :: t => if c == sep then [] :: h :: t else (c :: h) :: t

/-- The lines `pd.read_csv(..., skiprows=1)` parses: everything after the
banner line, with blank lines skipped (`skip_blank_lines` default). -/
def dataLines (file : List Str) : List Str :=
  (file.drop 1).filter (fun l => !l.isEmpty)

/-- One parsed row under a `k`-column schema: the first `k` fields
(`usecols=range(k)`), padded with missing values when the line is
short. -/
def rowOfLine (k : Nat) (line : Str) : List Cell :=
  let fs := (splitOn ';' line).map mkCell
  fs.take k ++ List.replicate (k - fs.length) Cell.null

/-- Failures of `process_csv_to_dataframe` (each a raised exception in the
source). -/
inductive ProcError where
  | emptyData : ProcError
  | malformedInput : ProcError
  | validationFailed : ProcError
deriving DecidableEq

/-- The seven-column schema. -/
def names7 : List String :=
  ["codigo", "acao", "tipo", "qtdeteorica", "part", "data_pregao", "timestamp_extracao"]

/-- The five-column schema. -/
def names5 : List String := ["codigo", "acao", "tipo", "qtdeteorica", "part"]

/-- The schema-width probe of `process_csv_to_dataframe`: at least 7
fields selects the full schema, 5 or 6 the basic one, fewer than 5 raises
`ValueError` (malformed input). -/
def columnNamesFor (n : Nat) : Except ProcError (List String) :=
  if 7 ≤ n then Except.ok names7
  else if 5 ≤ n then Except.ok names5
  else Except.error ProcError.malformedInput

/-- The two `pd.read_csv` calls of `process_csv_to_dataframe`: probe the
first data line for its field count, pick the schema, then parse every
data line under it.  An input without data lines raises pandas
`EmptyDataError`. -/
def read_table (file : List Str) : Except ProcError DataFrame :=
  match dataLines file with
  | [] => Except.error ProcError.emptyData
  | probe :: rest =>
    match columnNamesFor (splitOn ';' probe).length with
    | Except.error e => Except.error e
    | Except.ok names => Except.ok ⟨names, (probe :: rest).map (rowOfLine names.length)⟩

/-- Python `str.upper()` on the Latin-1 range (all the pipeline meets). -/
def pyUpper (c : Char) : Char :=
  if ('a' ≤ c && c ≤ 'z') ||
      (Char.ofNat 224 ≤ c && c ≤ Char.ofNat 254 && c != Char.ofNat 247) then
    Char.ofNat (c.toNat - 32)
  else c

/-- The `codigo` cleaning `.str.strip().str.upper()` on one cell; missing
values pass through as pandas `.str` methods do. -/
def upperCell : Cell → Cell
  | Cell.str s => Cell.str ((strip s).map pyUpper)
  | c => c

/-- View a column as the optional strings `clean_numeric_field` receives. -/
def colOptStr (df : DataFrame) (name : String) : List (Option Str) :=
  (getColCells df name).map (fun c =>
    match c with
    | Cell.str s => some s
    | _ => none)

/-- Pack a conversion result back into a cell. -/
def numCell : Option Dec → Cell
  | some q => Cell.num q
  | none => Cell.null

/-- The `data_pregao` conversion
`pd.to_datetime(..., format='%d/%m/%Y', errors='coerce')` on one cell. -/
def toDateCell (c : Cell) : Cell :=
  match c with
  | Cell.str s =>
    match parseDateDMY s with
    | some d => Cell.date d
    | none => Cell.null
  | _ => Cell.null

/-- The `timestamp_extracao` conversion
`pd.to_datetime(..., errors='coerce')` on one cell. -/
def toTimestampCell (c : Cell) : Cell :=
  match c with
  | Cell.str s =>
    match parseTimestamp s with
    | some d => Cell.date d
    | none => Cell.null
  | _ => Cell.null

/-- The in-memory transformation steps of `process_csv_to_dataframe`
between reading the CSV and the final drop of incomplete rows, in source
order: drop fully-empty rows, clean `codigo`, convert the two numeric
columns, synthesize `data_pregao` (from the banner date) and
`timestamp_extracao` (the current instant, `nowTs`) when absent, and
coerce both to datetime values. -/
def process_transform (file : List Str) (today : Date) (nowTs : Str)
    (df0 : DataFrame) : DataFrame :=
  let df1 := dropnaAll df0
  let df2 := if df1.cols.contains "codigo" then mapColumn df1 "codigo" upperCell else df1
  let df3 := setColumn df2 "qtdeteorica"
    ((clean_numeric_field (colOptStr df2 "qtdeteorica") true).map numCell)
  let df4 := setColumn df3 "part"
    ((clean_numeric_field (colOptStr df3 "part") false).map numCell)
  let df5 := if df4.cols.contains "data_pregao" then df4
    else addColumn df4 "data_pregao" (Cell.str (extract_date_from_header file today))
  let df6 := if df5.cols.contains "timestamp_extracao" then df5
    else addColumn df5 "timestamp_extracao" (Cell.str nowTs)
  let df7 := mapColumn df6 "data_pregao" toDateCell
  mapColumn df7 "timestamp_extracao" toTimestampCell

/-- DataProcessor.process_csv_to_dataframe on the contents of the CSV
file (the file-existence check is outside the model: the file is given).
`today` is the current date and `nowTs` the current timestamp string. -/
def process_csv_to_dataframe (file : List Str) (today : Date) (nowTs : Str) :
    Except ProcError DataFrame :=
  match read_table file with
  | Except.error e => Except.error e
  | Except.ok df0 =>
    let dfFinal := dropnaSubset ["codigo", "qtdeteorica", "part"]
      (process_transform file today nowTs df0)
    if validate_dataframe dfFinal then Except.ok dfFinal
    else Except.error ProcError.validationFailed

/-- The `dt.strftime('%Y-%m-%d')` conversion of `save_to_parquet` on one
cell of a datetime column; a missing value (`NaT`) stays missing. -/
def dateCellToText : Cell → Cell
  | Cell.date d => Cell.str (formatYMD d)
  | _ => Cell.null

/-- DataProcessor.save_to_parquet: the table as serialized into the
columnar artifact — both datetime columns are first converted to
fixed-format `YYYY-MM-DD` text.  The parquet encoding itself is the
external library's faithful round-trip of this table. -/
def save_to_parquet (df : DataFrame) : DataFrame :=
  mapColumn (mapColumn df "data_pregao" dateCellToText)
    "timestamp_extracao" dateCellToText

/-- Reading the columnar artifact back yields the stored table. -/
def read_parquet (artifact : DataFrame) : DataFrame := artifact

/-! Helper lemmas about columns and rows. -/

/-- Membership transfers to `List.contains` for strings. -/
lemma contains_iff {l : List String} {a : String} : l.contains a = true ↔ a ∈ l := by
  simp [List.contains_iff_exists_mem_beq]

/-- A present column name has an index. -/
lemma colIdx_isSome_of_mem {cols : List String} {nm : String} (h : nm ∈ cols) :
    ∃ i, colIdx cols nm = some i := by
  induction cols with
  | nil => cases h
  | cons c cs ih =>
    by_cases hc : (c == nm) = true
    · exact ⟨0, by simp [colIdx, hc]⟩
    · have : nm ∈ cs := by
        rcases List.mem_cons.mp h with h1 | h1
        · exact absurd (by simp [h1]) hc
        · exact h1
      rcases ih this with ⟨i, hi⟩
      exact ⟨i + 1, by simp [colIdx, hc, hi]⟩

/-- The name found at a column index. -/
lemma colIdx_getElem {cols : List String} {nm : String} :
    ∀ {j}, colIdx cols nm = some j → cols[j]? = some nm := by
  induction cols with
  | nil => intro j h; simp [colIdx] at h
  | cons c cs ih =>
    intro j h
    by_cases hc : (c == nm) = true
    · simp only [colIdx, hc, if_true, Option.some.injEq] at h
      subst h
      simpa using beq_iff_eq.mp hc
    · simp only [colIdx, hc, Bool.false_eq_true, if_false, Option.map_eq_some'] at h
      rcases h with ⟨i, hi, hplus⟩
      subst hplus
      simpa using ih hi

/-- A column index is within the column list. -/
lemma colIdx_lt_length {cols : List String} {nm : String} {j : Nat}
    (h : colIdx cols nm = some j) : j < cols.length := by
  have := colIdx_getElem h
  by_contra hge
  rw [List.getElem?_eq_none (by omega)] at this
  cases this

/-- Distinct names have distinct column indices. -/
lemma colIdx_ne {cols : List String} {nm other : String} {i j : Nat}
    (hno : nm ≠ other) (hi : colIdx cols other = some i)
    (hj : colIdx cols nm = some j) : i ≠ j := by
  intro heq
  subst heq
  have h1 := colIdx_getElem hi
  have h2 := colIdx_getElem hj
  rw [h1] at h2
  exact hno (Option.some_injective _ h2).symm

/-- A found name keeps its index under appending columns. -/
lemma colIdx_append_some {cols : List String} {nm : String} {j : Nat} (l : List String)
    (hj : colIdx cols nm = some j) : colIdx (cols ++ l) nm = some j := by
  induction cols generalizing j with
  | nil => simp [colIdx] at hj
  | cons c cs ih =>
    by_cases hc : (c == nm) = true
    · simp only [colIdx, hc, if_true, Option.some.injEq] at hj
      simp [colIdx, hc, hj]
    · simp only [colIdx, hc, Bool.false_eq_true, if_false, Option.map_eq_some'] at hj
      rcases hj with ⟨i, hi, hplus⟩
      subst hplus
      simp [List.cons_append, colIdx, hc, ih hi]

/-- An absent name is found at the end after appending it. -/
lemma colIdx_append_self {cols : List String} {nm : String}
    (h : colIdx cols nm = none) : colIdx (cols ++ [nm]) nm = some cols.length := by
  induction cols with
  | nil => simp [colIdx]
  | cons c cs ih =>
    by_cases hc : (c == nm) = true
    · simp [colIdx, hc] at h
    · simp only [colIdx, hc, Bool.false_eq_true, if_false, Option.map_eq_none'] at h
      simp [List.cons_append, colIdx, hc, ih h]

/-- Unfold `getColCells` at a found column. -/
lemma getColCells_some {df : DataFrame} {nm : String} {i : Nat}
    (h : colIdx df.cols nm = some i) :
    getColCells df nm = df.rows.map (fun r => r.getD i Cell.null) := by
  simp [getColCells, h]

/-- Unfold `getColCells` at an absent column. -/
lemma getColCells_none {df : DataFrame} {nm : String}
    (h : colIdx df.cols nm = none) : getColCells df nm = [] := by
  simp [getColCells, h]

/-- Unfold `getColCells` on a structure literal at a found column. -/
lemma getColCells_mk_some {cols : List String} {rows : List (List Cell)}
    {nm : String} {i : Nat} (h : colIdx cols nm = some i) :
    getColCells ⟨cols, rows⟩ nm = rows.map (fun r => r.getD i Cell.null) := by
  simp [getColCells, h]

/-- Unfold `getColCells` on a structure literal at an absent column. -/
lemma getColCells_mk_none {cols : List String} {rows : List (List Cell)}
    {nm : String} (h : colIdx cols nm = none) :
    getColCells ⟨cols, rows⟩ nm = [] := by
  simp [getColCells, h]

/-- Unfold `mapColumn` at a found column. -/
lemma mapColumn_some {df : DataFrame} {nm : String} {f : Cell → Cell} {i : Nat}
    (h : colIdx df.cols nm = some i) :
    mapColumn df nm f
      = ⟨df.cols, df.rows.map (fun r => r.set i (f (r.getD i Cell.null)))⟩ := by
  simp [mapColumn, h]

/-- Unfold `mapColumn` at an absent column. -/
lemma mapColumn_none {df : DataFrame} {nm : String} {f : Cell → Cell}
    (h : colIdx df.cols nm = none) : mapColumn df nm f = df := by
  simp [mapColumn, h]

/-- Unfold `setColumn` at a found column. -/
lemma setColumn_some {df : DataFrame} {nm : String} {vals : List Cell} {i : Nat}
    (h : colIdx df.cols nm = some i) :
    setColumn df nm vals
      = ⟨df.cols, df.rows.zipWith (fun r v => r.set i v) vals⟩ := by
  simp [setColumn, h]

/-- `getD` after `set` at a different position. -/
lemma getD_set_ne {r : List Cell} {i j : Nat} (h : i ≠ j) (v d : Cell) :
    (r.set i v).getD j d = r.getD j d := by
  rw [List.getD_eq_getElem?_getD, List.getD_eq_getElem?_getD, List.getElem?_set_ne h]

/-- `getD` after `set` at the same position. -/
lemma getD_set_self {r : List Cell} {i : Nat} (v d : Cell) :
    (r.set i v).getD i d = if i < r.length then v else d := by
  by_cases h : i < r.length
  · rw [if_pos h, List.getD_eq_getElem?_getD, List.getElem?_set_eq_of_lt v h]
    rfl
  · rw [if_neg h, List.getD_eq_getElem?_getD,
      List.getElem?_eq_none (by rw [List.length_set]; omega)]
    rfl

/-- Elements of a `zipWith` come from the two lists. -/
lemma mem_zipWith_elim {α β γ : Type} {f : α → β → γ} {x : γ} :
    ∀ {l1 : List α} {l2 : List β}, x ∈ List.zipWith f l1 l2 →
      ∃ a ∈ l1, ∃ b ∈ l2, x = f a b := by
  intro l1
  induction l1 with
  | nil => intro l2 h; simp [List.zipWith] at h
  | cons a as ih =>
    intro l2 h
    cases l2 with
    | nil => simp [List.zipWith] at h
    | cons b bs =>
      rcases List.mem_cons.mp h with h1 | h1
      · exact ⟨a, List.mem_cons_self _ _, b, List.mem_cons_self _ _, h1⟩
      · rcases ih h1 with ⟨a2, ha, b2, hb, hx⟩
        exact ⟨a2, List.mem_cons_of_mem _ ha, b2, List.mem_cons_of_mem _ hb, hx⟩

/-- Every row has one cell per column. -/
def uniform (df : DataFrame) : Prop :=
  ∀ r ∈ df.rows, r.length = df.cols.length

/-- Rows produced by `rowOfLine` have the schema width. -/
lemma rowOfLine_length (k : Nat) (line : Str) : (rowOfLine k line).length = k := by
  simp only [rowOfLine, List.length_append, List.length_take, List.length_replicate,
    List.length_map]
  omega

lemma uniform_dropnaAll {df : DataFrame} (h : uniform df) : uniform (dropnaAll df) := by
  intro r hr
  exact h r (List.mem_of_mem_filter hr)

lemma uniform_mapColumn {df : DataFrame} {nm : String} {f : Cell → Cell}
    (h : uniform df) : uniform (mapColumn df nm f) := by
  cases hc : colIdx df.cols nm with
  | none => rw [mapColumn_none hc]; exact h
  | some i =>
    rw [mapColumn_some hc]
    intro r hr
    rcases List.mem_map.mp hr with ⟨r0, hr0, rfl⟩
    rw [List.length_set]
    exact h r0 hr0

lemma uniform_setColumn {df : DataFrame} {nm : String} {vals : List Cell}
    (h : uniform df) : uniform (setColumn df nm vals) := by
  cases hc : colIdx df.cols nm with
  | none => unfold setColumn; rw [hc]; exact h
  | some i =>
    rw [setColumn_some hc]
    intro r hr
    rcases mem_zipWith_elim hr with ⟨r0, hr0, v, _, rfl⟩
    rw [List.length_set]
    exact h r0 hr0

lemma uniform_addColumn {df : DataFrame} {nm : String} {v : Cell}
    (h : uniform df) : uniform (addColumn df nm v) := by
  intro r hr
  rcases List.mem_map.mp hr with ⟨r0, hr0, rfl⟩
  simp only [addColumn, List.length_append, List.length_cons, List.length_nil]
  rw [h r0 hr0]

lemma cols_dropnaAll (df : DataFrame) : (dropnaAll df).cols = df.cols := rfl

lemma cols_mapColumn (df : DataFrame) (nm : String) (f : Cell → Cell) :
    (mapColumn df nm f).cols = df.cols := by
  cases hc : colIdx df.cols nm with
  | none => rw [mapColumn_none hc]
  | some i => rw [mapColumn_some hc]

lemma cols_setColumn (df : DataFrame) (nm : String) (vals : List Cell) :
    (setColumn df nm vals).cols = df.cols := by
  cases hc : colIdx df.cols nm with
  | none => unfold setColumn; rw [hc]
  | some i => rw [setColumn_some hc]

lemma cols_addColumn (df : DataFrame) (nm : String) (v : Cell) :
    (addColumn df nm v).cols = df.cols ++ [nm] := rfl

/-- A column is untouched by mapping a differently-named column. -/
lemma getColCells_mapColumn_other {df : DataFrame} {nm other : String}
    {f : Cell → Cell} (hno : nm ≠ other) :
    getColCells (mapColumn df other f) nm = getColCells df nm := by
  cases hi : colIdx df.cols other with
  | none => rw [mapColumn_none hi]
  | some i =>
    rw [mapColumn_some hi]
    cases hj : colIdx df.cols nm with
    | none =>
      rw [getColCells_none hj, getColCells_mk_none hj]
    | some j =>
      rw [getColCells_some hj, getColCells_mk_some hj, List.map_map]
      refine List.map_congr_left fun r _ => ?_
      exact getD_set_ne (colIdx_ne hno hi hj) _ _

/-- Mapping a column with a missing-preserving function maps its cells. -/
lemma getColCells_mapColumn_self {df : DataFrame} {nm : String} {f : Cell → Cell}
    (hf : f Cell.null = Cell.null) :
    getColCells (mapColumn df nm f) nm = (getColCells df nm).map f := by
  cases hi : colIdx df.cols nm with
  | none => rw [mapColumn_none hi, getColCells_none hi]; rfl
  | some i =>
    rw [mapColumn_some hi, getColCells_some hi, getColCells_mk_some hi,
      List.map_map, List.map_map]
    refine List.map_congr_left fun r _ => ?_
    simp only [Function.comp_apply]
    rw [getD_set_self]
    by_cases h : i < r.length
    · rw [if_pos h]
    · rw [if_neg h]
      have hnull : r.getD i Cell.null = Cell.null := by
        rw [List.getD_eq_getElem?_getD, List.getElem?_eq_none (by omega)]
        rfl
      rw [hnull, hf]

/-- Mapping the cells of `zipWith set` at another position. -/
lemma map_getD_zipWith_set {i j : Nat} (hij : i ≠ j) :
    ∀ (rows : List (List Cell)) (vals : List Cell), vals.length = rows.length →
      (List.zipWith (fun r v => r.set i v) rows vals).map
          (fun r => r.getD j Cell.null)
        = rows.map (fun r => r.getD j Cell.null) := by
  intro rows
  induction rows with
  | nil => intro vals _; simp [List.zipWith]
  | cons r rs ih =>
    intro vals hlen
    cases vals with
    | nil => simp at hlen
    | cons v vs =>
      simp only [List.zipWith, List.map_cons, List.cons.injEq]
      exact ⟨getD_set_ne hij _ _, ih vs (by simpa using hlen)⟩

/-- A column is untouched by replacing a differently-named column. -/
lemma getColCells_setColumn_other {df : DataFrame} {nm other : String}
    {vals : List Cell} (hno : nm ≠ other) (hlen : vals.length = df.rows.length) :
    getColCells (setColumn df other vals) nm = getColCells df nm := by
  cases hi : colIdx df.cols other with
  | none => unfold setColumn; rw [hi]
  | some i =>
    rw [setColumn_some hi]
    cases hj : colIdx df.cols nm with
    | none =>
      rw [getColCells_none hj, getColCells_mk_none hj]
    | some j =>
      rw [getColCells_some hj, getColCells_mk_some hj]
      exact map_getD_zipWith_set (colIdx_ne hno hi hj) df.rows vals hlen

/-- A column is untouched by appending a new column. -/
lemma getColCells_addColumn_other {df : DataFrame} {nm other : String} {v : Cell}
    {j : Nat} (hj : colIdx df.cols nm = some j) (hu : uniform df) :
    getColCells (addColumn df other v) nm = getColCells df nm := by
  have happ : colIdx (df.cols ++ [other]) nm = some j := colIdx_append_some _ hj
  rw [getColCells_some hj,
    @getColCells_some (addColumn df other v) nm j (by rw [cols_addColumn]; exact happ)]
  unfold addColumn
  rw [List.map_map]
  refine List.map_congr_left fun r hr => ?_
  simp only [Function.comp_apply]
  rw [List.getD_eq_getElem?_getD, List.getD_eq_getElem?_getD,
    List.getElem?_append_left (by rw [hu r hr]; exact colIdx_lt_length hj)]

/-- The appended column holds the constant value in every row. -/
lemma getColCells_addColumn_self {df : DataFrame} {nm : String} {v : Cell}
    (hnone : colIdx df.cols nm = none) (hu : uniform df) :
    getColCells (addColumn df nm v) nm = df.rows.map (fun _ => v) := by
  have happ : colIdx (df.cols ++ [nm]) nm = some df.cols.length :=
    colIdx_append_self hnone
  rw [@getColCells_some (addColumn df nm v) nm df.cols.length
    (by rw [cols_addColumn]; exact happ)]
  unfold addColumn
  rw [List.map_map]
  refine List.map_congr_left fun r hr => ?_
  simp only [Function.comp_apply]
  rw [List.getD_eq_getElem?_getD, List.getElem?_append_right (by rw [hu r hr]),
    hu r hr]
  simp

/-- C7.  `validate_dataframe` returns false exactly when the table is
empty or one of the required columns (`codigo`, `acao`, `tipo`,
`qtdeteorica`, `part`, `data_pregao`, `timestamp_extracao`) is absent,
and true otherwise.  The embedding is a pure total function: it can
neither mutate the table nor raise. -/
theorem validate_dataframe_spec (df : DataFrame) :
    validate_dataframe df = false ↔
      df.rows = [] ∨ ∃ c ∈ REQUIRED_COLUMNS, c ∉ df.cols := by
  unfold validate_dataframe
  by_cases h1 : df.rows.isEmpty = true
  · simp only [h1, if_true, true_iff]
    exact Or.inl (List.isEmpty_iff.mp h1)
  · rw [if_neg h1]
    cases hb : (REQUIRED_COLUMNS.all fun c => df.cols.contains c) with
    | true =>
      rw [if_neg (by decide)]
      constructor
      · intro h
        exact absurd h (by simp)
      · rintro (hrows | ⟨c, hc, hnc⟩)
        · exact absurd (List.isEmpty_iff.mpr hrows) h1
        · rw [List.all_eq_true] at hb
          exact absurd (contains_iff.mp (hb c hc)) hnc
    | false =>
      rw [if_pos (by decide)]
      simp only [true_iff]
      right
      have hex : ¬ ∀ c ∈ REQUIRED_COLUMNS, df.cols.contains c = true := by
        intro hall
        rw [← List.all_eq_true] at hall
        rw [hall] at hb
        cases hb
      push_neg at hex
      rcases hex with ⟨c, hc, hnc⟩
      exact ⟨c, hc, fun hmem => hnc (contains_iff.mpr hmem)⟩

/-- C3.  The field count of the second line (the first data line after
the skipped banner) selects the schema: at least 7 fields gives the 7
canonical names with the first 7 fields kept, 5 or 6 gives the 5 basic
names, and fewer than 5 makes ingestion fail with the malformed-input
error before any row is produced, aborting the run. -/
theorem column_count_detection (file : List Str) (today : Date) (nowTs : Str)
    (probe : Str) (rest : List Str) (hdata : dataLines file = probe :: rest) :
    (7 ≤ (splitOn ';' probe).length →
      read_table file = Except.ok ⟨names7, (probe :: rest).map (rowOfLine 7)⟩)
    ∧ (5 ≤ (splitOn ';' probe).length → (splitOn ';' probe).length < 7 →
      read_table file = Except.ok ⟨names5, (probe :: rest).map (rowOfLine 5)⟩)
    ∧ ((splitOn ';' probe).length < 5 →
      read_table file = Except.error ProcError.malformedInput
      ∧ process_csv_to_dataframe file today nowTs
          = Except.error ProcError.malformedInput) := by
  refine ⟨?_, ?_, ?_⟩
  · intro h7
    unfold read_table
    rw [hdata]
    simp only [columnNamesFor, if_pos h7]
    rfl
  · intro h5 h7
    unfold read_table
    rw [hdata]
    simp only [columnNamesFor, if_neg (by omega : ¬ 7 ≤ (splitOn ';' probe).length),
      if_pos h5]
    rfl
  · intro h5
    have hrt : read_table file = Except.error ProcError.malformedInput := by
      unfold read_table
      rw [hdata]
      simp only [columnNamesFor, if_neg (by omega : ¬ 7 ≤ (splitOn ';' probe).length),
        if_neg (by omega : ¬ 5 ≤ (splitOn ';' probe).length)]
    refine ⟨hrt, ?_⟩
    unfold process_csv_to_dataframe
    rw [hrt]

/-- A file whose data lines have only 3 delimited fields. -/
def malformedCsv : List Str := [strL "IBOV - Carteira do Dia 04/08/25", strL "a;b;c"]

/-- Witness for C3: the 3-field file aborts with the malformed-input
error. -/
theorem column_count_detection_witness :
    process_csv_to_dataframe malformedCsv ⟨2025, 8, 4⟩ (strL "2025-08-04T18:00:00")
      = Except.error ProcError.malformedInput :=
  ((column_count_detection malformedCsv ⟨2025, 8, 4⟩ (strL "2025-08-04T18:00:00")
      (strL "a;b;c") [] (by decide)).2.2 (by decide)).2

/-- The C5 scenario: a banner line, a header-ish line, three valid data
rows and a footer/total row with an empty `code` field. -/
def exampleCsv : List Str :=
  [strL "Carteira do Dia 04/08/25",
   strL "Codigo;Acao;Tipo;Qtde. Teorica;Part. (%)",
   strL "ABEV3;AMBEV SA;ON;1.234;2,881",
   strL "PETR4;PETROBRAS;PN;2.345;3,5",
   strL "VALE3;VALE;ON;3.456;4,0",
   strL ";;;7.035;10,381"]

/-- The current date used when running the example. -/
def exampleToday : Date := ⟨2025, 8, 4⟩

/-- The current timestamp string used when running the example. -/
def exampleNowTs : Str := strL "2025-08-04T18:00:00"

/-- The table of a successful run (the empty table otherwise). -/
def okOr (x : Except ProcError DataFrame) : DataFrame :=
  match x with
  | Except.ok d => d
  | Except.error _ => ⟨[], []⟩

set_option maxHeartbeats 4000000 in
/-- C5.  Ingesting the example CSV (banner, header-ish line, three valid
rows, footer with empty code) succeeds with exactly 3 rows, and every
`codigo` value matches `CODIGO_PATTERN` (`^[A-Z0-9]+$`). -/
theorem ingest_example_three_rows :
    (process_csv_to_dataframe exampleCsv exampleToday exampleNowTs).isOk = true
    ∧ (okOr (process_csv_to_dataframe exampleCsv exampleToday exampleNowTs)).rows.length
        = 3
    ∧ ((getColCells (okOr (process_csv_to_dataframe exampleCsv exampleToday exampleNowTs))
          "codigo").all (fun c =>
            match c with
            | Cell.str s => CODIGO_PATTERN s
            | _ => false)) = true :=
  ⟨by decide, by decide, by decide⟩

/-- A table passing validation contains every required column. -/
lemma validate_required_mem {df : DataFrame} (h : validate_dataframe df = true) :
    ∀ c ∈ REQUIRED_COLUMNS, c ∈ df.cols := by
  intro c hc
  unfold validate_dataframe at h
  by_cases h1 : df.rows.isEmpty = true
  · rw [if_pos h1] at h
    cases h
  · rw [if_neg h1] at h
    cases hb : (REQUIRED_COLUMNS.all fun c => df.cols.contains c) with
    | false =>
      rw [hb] at h
      rw [if_pos (by decide)] at h
      cases h
    | true =>
      rw [List.all_eq_true] at hb
      exact contains_iff.mp (hb c hc)

/-- After `dropna(subset=names)` every remaining cell of a subset column
is present. -/
lemma dropnaSubset_all_nonnull {names : List String} {df : DataFrame} {nm : String}
    (hnm : nm ∈ names) (hmem : nm ∈ df.cols) :
    ((getColCells (dropnaSubset names df) nm).all (fun c => c != Cell.null)) = true := by
  obtain ⟨i, hi⟩ := colIdx_isSome_of_mem hmem
  unfold dropnaSubset
  rw [getColCells_mk_some hi, List.all_eq_true]
  intro x hx
  rcases List.mem_map.mp hx with ⟨r, hr, rfl⟩
  have hpred := List.of_mem_filter hr
  rw [List.all_eq_true] at hpred
  have hthis := hpred nm hnm
  simp only [hi] at hthis
  exact hthis

set_option maxHeartbeats 2000000 in
/-- C4.  Every row of a table returned by `process_csv_to_dataframe` has
non-null `codigo`, `qtdeteorica` and `part`: rows with an unparseable
numeric value or a missing required field were dropped locally by the
final `dropna(subset=...)` before validation, and a defective row by
itself never fails the run (row handling is total; the run can only fail
through the width probe or final validation). -/
theorem required_fields_nonnull (file : List Str) (today : Date) (nowTs : Str)
    (df : DataFrame)
    (h : process_csv_to_dataframe file today nowTs = Except.ok df) :
    ((getColCells df "codigo").all (fun c => c != Cell.null)) = true
    ∧ ((getColCells df "qtdeteorica").all (fun c => c != Cell.null)) = true
    ∧ ((getColCells df "part").all (fun c => c != Cell.null)) = true := by
  unfold process_csv_to_dataframe at h
  cases hrt : read_table file with
  | error e =>
    rw [hrt] at h
    cases h
  | ok df0 =>
    rw [hrt] at h
    simp only at h
    by_cases hv : validate_dataframe (dropnaSubset ["codigo", "qtdeteorica", "part"]
        (process_transform file today nowTs df0)) = true
    · rw [if_pos hv] at h
      have hdf := Except.ok.inj h
      subst hdf
      have hreq := validate_required_mem hv
      refine ⟨?_, ?_, ?_⟩
      · exact dropnaSubset_all_nonnull (by decide) (hreq "codigo" (by decide))
      · exact dropnaSubset_all_nonnull (by decide) (hreq "qtdeteorica" (by decide))
      · exact dropnaSubset_all_nonnull (by decide) (hreq "part" (by decide))
    · rw [if_neg hv] at h
      cases h

/-- Decidable equality of run results, used to evaluate witnesses. -/
instance : DecidableEq (Except ProcError DataFrame) := fun a b =>
  match a, b with
  | Except.ok x, Except.ok y =>
    if h : x = y then isTrue (by rw [h]) else isFalse (fun hh => by cases hh; exact h rfl)
  | Except.error x, Except.error y =>
    if h : x = y then isTrue (by rw [h]) else isFalse (fun hh => by cases hh; exact h rfl)
  | Except.ok _, Except.error _ => isFalse (fun hh => by cases hh)
  | Except.error _, Except.ok _ => isFalse (fun hh => by cases hh)

set_option maxHeartbeats 4000000 in
/-- Witness for C4 on the example run. -/
theorem required_fields_nonnull_witness :
    ((getColCells (okOr (process_csv_to_dataframe exampleCsv exampleToday exampleNowTs))
        "codigo").all (fun c => c != Cell.null)) = true
    ∧ ((getColCells (okOr (process_csv_to_dataframe exampleCsv exampleToday exampleNowTs))
        "qtdeteorica").all (fun c => c != Cell.null)) = true
    ∧ ((getColCells (okOr (process_csv_to_dataframe exampleCsv exampleToday exampleNowTs))
        "part").all (fun c => c != Cell.null)) = true :=
  required_fields_nonnull exampleCsv exampleToday exampleNowTs _ (by decide)

/-- Cells surviving `dropna(subset=...)` come from the original column. -/
lemma getColCells_dropnaSubset_sub {names : List String} {df : DataFrame}
    {nm : String} : ∀ c ∈ getColCells (dropnaSubset names df) nm,
      c ∈ getColCells df nm := by
  intro c hc
  unfold dropnaSubset at hc
  cases hj : colIdx df.cols nm with
  | none =>
    rw [getColCells_mk_none hj] at hc
    cases hc
  | some i =>
    rw [getColCells_mk_some hj] at hc
    rw [getColCells_some hj]
    rcases List.mem_map.mp hc with ⟨r, hr, rfl⟩
    exact List.mem_map_of_mem _ (List.mem_of_mem_filter hr)

/-- Shape of a successful raw read. -/
lemma read_table_shape {file : List Str} {df0 : DataFrame}
    (h : read_table file = Except.ok df0) :
    ∃ probe rest names, dataLines file = probe :: rest
      ∧ columnNamesFor (splitOn ';' probe).length = Except.ok names
      ∧ df0 = ⟨names, (probe :: rest).map (rowOfLine names.length)⟩ := by
  unfold read_table at h
  cases hdl : dataLines file with
  | nil =>
    rw [hdl] at h
    cases h
  | cons probe rest =>
    rw [hdl] at h
    simp only at h
    cases hcn : columnNamesFor (splitOn ';' probe).length with
    | error e =>
      rw [hcn] at h
      cases h
    | ok names =>
      rw [hcn] at h
      exact ⟨probe, rest, names, rfl, hcn, (Except.ok.inj h).symm⟩

/-- A raw read is uniform: one cell per schema column in every row. -/
lemma read_table_uniform {file : List Str} {df0 : DataFrame}
    (h : read_table file = Except.ok df0) : uniform df0 := by
  rcases read_table_shape h with ⟨probe, rest, names, _, _, rfl⟩
  intro r hr
  rcases List.mem_map.mp hr with ⟨line, _, rfl⟩
  exact rowOfLine_length _ _

/-- In the basic branch every cell of the synthesized `data_pregao`
column is the converted banner date. -/
lemma process_transform_data_pregao (file : List Str) (today : Date) (nowTs : Str)
    (df0 : DataFrame) (hcols : df0.cols = names5) (hu : uniform df0) :
    ∀ c ∈ getColCells (process_transform file today nowTs df0) "data_pregao",
      c = toDateCell (Cell.str (extract_date_from_header file today)) := by
  intro c hc
  simp only [process_transform] at hc
  have hcond1 : (dropnaAll df0).cols.contains "codigo" = true := by
    rw [cols_dropnaAll, hcols]
    decide
  rw [hcond1] at hc
  simp only [eq_self_iff_true, if_true] at hc
  set df2 := mapColumn (dropnaAll df0) "codigo" upperCell with hdf2
  have hcols2 : df2.cols = names5 := by
    rw [hdf2, cols_mapColumn, cols_dropnaAll, hcols]
  have hu2 : uniform df2 := hdf2 ▸ uniform_mapColumn (uniform_dropnaAll hu)
  set df3 := setColumn df2 "qtdeteorica"
    ((clean_numeric_field (colOptStr df2 "qtdeteorica") true).map numCell) with hdf3
  have hcols3 : df3.cols = names5 := by rw [hdf3, cols_setColumn, hcols2]
  have hu3 : uniform df3 := hdf3 ▸ uniform_setColumn hu2
  set df4 := setColumn df3 "part"
    ((clean_numeric_field (colOptStr df3 "part") false).map numCell) with hdf4
  have hcols4 : df4.cols = names5 := by rw [hdf4, cols_setColumn, hcols3]
  have hu4 : uniform df4 := hdf4 ▸ uniform_setColumn hu3
  have hcond2 : df4.cols.contains "data_pregao" = false := by
    rw [hcols4]
    decide
  rw [hcond2] at hc
  simp only [Bool.false_eq_true, if_false] at hc
  set df5 := addColumn df4 "data_pregao"
    (Cell.str (extract_date_from_header file today)) with hdf5
  have hcols5 : df5.cols = names5 ++ ["data_pregao"] := by
    rw [hdf5, cols_addColumn, hcols4]
  have hu5 : uniform df5 := hdf5 ▸ uniform_addColumn hu4
  have hcond3 : df5.cols.contains "timestamp_extracao" = false := by
    rw [hcols5]
    decide
  rw [hcond3] at hc
  simp only [Bool.false_eq_true, if_false] at hc
  rw [getColCells_mapColumn_other (by decide)] at hc
  rw [getColCells_mapColumn_self (by rfl)] at hc
  have hj5 : colIdx df5.cols "data_pregao" = some 5 := by
    rw [hcols5]
    decide
  rw [getColCells_addColumn_other hj5 hu5] at hc
  have hnone4 : colIdx df4.cols "data_pregao" = none := by
    rw [hcols4]
    decide
  rw [hdf5, getColCells_addColumn_self hnone4 hu4] at hc
  rcases List.mem_map.mp hc with ⟨x, hx, rfl⟩
  rcases List.mem_map.mp hx with ⟨r, _, rfl⟩
  rfl

/-- The basic-branch schema of a narrow file. -/
lemma columnNamesFor_basic {n : Nat} {names : List String} (h7 : n < 7)
    (h : columnNamesFor n = Except.ok names) : names = names5 := by
  unfold columnNamesFor at h
  rw [if_neg (by omega)] at h
  by_cases h5 : 5 ≤ n
  · rw [if_pos h5] at h
    exact (Except.ok.inj h).symm
  · rw [if_neg h5] at h
    cases h

/-- Every surviving row of a successful run in the basic branch carries
the banner-derived session date. -/
lemma process_data_pregao_of_basic (file : List Str) (today : Date) (nowTs : Str)
    (df : DataFrame)
    (hok : process_csv_to_dataframe file today nowTs = Except.ok df)
    (h7 : (splitOn ';' ((dataLines file).headD [])).length < 7) :
    ∀ c ∈ getColCells df "data_pregao",
      c = toDateCell (Cell.str (extract_date_from_header file today)) := by
  unfold process_csv_to_dataframe at hok
  cases hrt : read_table file with
  | error e =>
    rw [hrt] at hok
    cases hok
  | ok df0 =>
    rw [hrt] at hok
    simp only at hok
    by_cases hv : validate_dataframe (dropnaSubset ["codigo", "qtdeteorica", "part"]
        (process_transform file today nowTs df0)) = true
    · rw [if_pos hv] at hok
      have hdf := Except.ok.inj hok
      subst hdf
      rcases read_table_shape hrt with ⟨probe, rest, names, hdl, hcn, hshape⟩
      have hprobe : (splitOn ';' probe).length < 7 := by
        rw [hdl] at h7
        exact h7
      have hnames : names = names5 := columnNamesFor_basic hprobe hcn
      subst hnames
      have hcols0 : df0.cols = names5 := by rw [hshape]
      have hu0 : uniform df0 := read_table_uniform hrt
      intro c hc
      exact process_transform_data_pregao file today nowTs df0 hcols0 hu0 c
        (getColCells_dropnaSubset_sub c hc)
    · rw [if_neg hv] at hok
      cases hok

/-- C2.  When the session-date column is absent (fewer than 7 probed
fields), ingestion takes the session date from the banner line: the first
`dd/mm/yy` match maps to `dd/mm/20yy` and every emitted row carries that
converted date; a banner whose first match is `04/08/25` gives
`session_date = 2025-08-04` in every row; when no match exists the
current date is used, without raising. -/
theorem session_date_from_banner :
    (∀ (file : List Str) (today : Date) (nowTs : Str) (df : DataFrame),
        process_csv_to_dataframe file today nowTs = Except.ok df →
        (splitOn ';' ((dataLines file).headD [])).length < 7 →
        ∀ c ∈ getColCells df "data_pregao",
          c = toDateCell (Cell.str (extract_date_from_header file today)))
    ∧ (∀ (file : List Str) (today : Date) (dd mm yy : Str),
        scanDate (strip (file.headD [])) = some (dd, mm, yy) →
        extract_date_from_header file today = dd ++ '/' :: mm ++ '/' :: '2' :: '0' :: yy)
    ∧ (∀ (file : List Str) (today : Date) (nowTs : Str) (df : DataFrame),
        process_csv_to_dataframe file today nowTs = Except.ok df →
        (splitOn ';' ((dataLines file).headD [])).length < 7 →
        scanDate (strip (file.headD [])) = some (strL "04", strL "08", strL "25") →
        ((getColCells df "data_pregao").all
          (fun c => c == Cell.date ⟨2025, 8, 4⟩)) = true)
    ∧ (∀ (file : List Str) (today : Date),
        scanDate (strip (file.headD [])) = none →
        extract_date_from_header file today = formatDMY today) := by
  refine ⟨process_data_pregao_of_basic, ?_, ?_, ?_⟩
  · intro file today dd mm yy hscan
    simp only [extract_date_from_header, hscan]
  · intro file today nowTs df hok h7 hscan
    rw [List.all_eq_true]
    intro c hc
    have hcell := process_data_pregao_of_basic file today nowTs df hok h7 c hc
    have hextract : extract_date_from_header file today
        = strL "04" ++ '/' :: strL "08" ++ '/' :: '2' :: '0' :: strL "25" := by
      simp only [extract_date_from_header, hscan]
    rw [hextract] at hcell
    have hdate : toDateCell
        (Cell.str (strL "04" ++ '/' :: strL "08" ++ '/' :: '2' :: '0' :: strL "25"))
        = Cell.date ⟨2025, 8, 4⟩ := by decide
    rw [hdate] at hcell
    simp [hcell]
  · intro file today hscan
    simp only [extract_date_from_header, hscan]

set_option maxHeartbeats 4000000 in
/-- Witness for C2 on the example run: every row carries 2025-08-04. -/
theorem session_date_from_banner_witness :
    ((getColCells (okOr (process_csv_to_dataframe exampleCsv exampleToday exampleNowTs))
        "data_pregao").all (fun c => c == Cell.date ⟨2025, 8, 4⟩)) = true :=
  session_date_from_banner.2.2.1 exampleCsv exampleToday exampleNowTs _
    (by decide) (by decide) (by decide)

/-- `mapColumn` keeps the number of rows. -/
lemma rows_length_mapColumn (df : DataFrame) (nm : String) (f : Cell → Cell) :
    (mapColumn df nm f).rows.length = df.rows.length := by
  cases hc : colIdx df.cols nm with
  | none => rw [mapColumn_none hc]
  | some i =>
    rw [mapColumn_some hc]
    exact List.length_map _ _

/-- C8.  Writing a validated table to the columnar artifact (after the
date/time columns are converted to fixed-format `YYYY-MM-DD` text) and
reading the artifact back preserves the row count and the sequence of
`codigo` values, and the `data_pregao` column of the artifact is exactly
the original dates rendered as `YYYY-MM-DD` strings (the parquet encoding
itself is the external library's faithful round trip of the stored
table). -/
theorem parquet_round_trip (df : DataFrame) (_hv : validate_dataframe df = true) :
    (read_parquet (save_to_parquet df)).rows.length = df.rows.length
    ∧ getColCells (read_parquet (save_to_parquet df)) "codigo"
        = getColCells df "codigo"
    ∧ getColCells (read_parquet (save_to_parquet df)) "data_pregao"
        = (getColCells df "data_pregao").map dateCellToText := by
  refine ⟨?_, ?_, ?_⟩
  · unfold read_parquet save_to_parquet
    rw [rows_length_mapColumn, rows_length_mapColumn]
  · unfold read_parquet save_to_parquet
    rw [getColCells_mapColumn_other (by decide), getColCells_mapColumn_other (by decide)]
  · unfold read_parquet save_to_parquet
    rw [getColCells_mapColumn_other (by decide), getColCells_mapColumn_self (by rfl)]

/-- A small validated table for the round-trip witness. -/
def exampleTable : DataFrame :=
  ⟨names7,
   [[Cell.str (strL "ABEV3"), Cell.str (strL "AMBEV SA"), Cell.str (strL "ON"),
     Cell.num ⟨1234, 1⟩, Cell.num ⟨2881, 1000⟩, Cell.date ⟨2025, 8, 4⟩,
     Cell.date ⟨2025, 8, 4⟩]]⟩

/-- Witness for C8 on the example table. -/
theorem parquet_round_trip_witness :
    (read_parquet (save_to_parquet exampleTable)).rows.length
        = exampleTable.rows.length
    ∧ getColCells (read_parquet (save_to_parquet exampleTable)) "codigo"
        = getColCells exampleTable "codigo"
    ∧ getColCells (read_parquet (save_to_parquet exampleTable)) "data_pregao"
        = (getColCells exampleTable "data_pregao").map dateCellToText :=
  parquet_round_trip exampleTable (by decide)

end B3
